import Mathlib

/-!
# Verification of the starch shader-pipeline core

Shallow embedding of the starch repository (a build-time shader transpilation
pipeline built on the external naga library).  Rust modules embedded here:

* `src/util.rs`        : path helpers (`split_file_at_dot`, `file_prefix`, `long_ext`)
* `src/shader.rs`      : `Shader`, `stage_from_name`
* `src/config.rs`      : `Config`, `Config::out_relative`
* `src/language/transpile.rs` : `ShaderLanguage`, `ShaderFile`, `Transpile`
* `src/language/codegen.rs`   : `CodegenData`, merge (`AddAssign`), rendering
* `src/preprocess/mod.rs`     : `proc_includes` include-macro loop

Modelling conventions:

* Rust `PathBuf` is a list of path components (`List String`).  Paths are
  assumed normalized (no `.` components), which matches every input the
  pipeline constructs.  Strings are treated at `Char` granularity; all file
  names handled by the pipeline are ASCII, where Rust byte indices and the
  character indices used here coincide.
* The external naga front-ends and back-ends are opaque collaborators; they
  are modelled as oracle functions supplied as parameters.
* Rust `panic!`-style aborts (`expect`, `unwrap`, out-of-bounds slicing) are
  modelled by `Option.none` or by the dedicated error value `expectFailed`,
  as noted at each definition.
* All crate features (`wgsl-in/out`, `glsl-in/out`, `spv-in/out`, `hlsl-out`,
  `msl-out`, `config-file`) are taken as enabled, matching the fully built
  crate; `cfg`-gated match arms are therefore all present.
-/

/-- ASCII lowercasing, modelling Rust `str::to_ascii_lowercase`. -/
def asciiLowercase (s : String) : String :=
  ⟨s.data.map fun ch => if 'A' ≤ ch ∧ ch ≤ 'Z' then Char.ofNat (ch.toNat + 32) else ch⟩

/-- ASCII uppercasing, modelling Rust `str::to_ascii_uppercase`. -/
def asciiUppercase (s : String) : String :=
  ⟨s.data.map fun ch => if 'a' ≤ ch ∧ ch ≤ 'z' then Char.ofNat (ch.toNat - 32) else ch⟩

/-- Models Rust `str::replace(".", "_")`: with a one-character pattern and a
one-character replacement this is exactly a character-wise map. -/
def replaceDots (s : String) : String :=
  ⟨s.data.map fun ch => if ch = '.' then '_' else ch⟩

/-- A filesystem path as its (normalized) component list, modelling `PathBuf`. -/
abbrev FsPath := List String

/-- Models `Path::join` / successive `join` calls: appending components. -/
def FsPath.pjoin (p : FsPath) (q : FsPath) : FsPath := p ++ q

/-- Models `Path::to_str` (infallible for our `String`-based components):
the textual form of the path with `/` separators, as used by
`PathExt::long_ext` which slices the whole path string. -/
def FsPath.render : FsPath → String
  | [] => ""
  | [a] => a
  | a :: rest => a ++ "/" ++ FsPath.render rest

/-- Models `Path::file_name`: the final component, none when the path is
empty or ends in `..` (Rust also returns `None` there). -/
def FsPath.fileNameOf (p : FsPath) : Option String :=
  match p.getLast? with
  | none => none
  | some s => if s = ".." ∨ s = "" then none else some s

/-- Index of the last `.` in a file name, if any. -/
def lastDotIdx (name : String) : Option Nat :=
  match (name.data.reverse.findIdx? (fun ch => ch = '.')) with
  | none => none
  | some j => some (name.data.length - 1 - j)

/-- Models Rust `Path::file_stem` applied to a file name: the part before the
last dot, except that a lone leading dot does not count as a separator. -/
def fileStemOf (name : String) : String :=
  match lastDotIdx name with
  | none => name
  | some 0 => name
  | some j => ⟨name.data.take j⟩

/-- Models Rust `Path::extension` applied to a file name: the part after the
last dot, unless there is no dot or the only dot is a leading one. -/
def extOf (name : String) : Option String :=
  match lastDotIdx name with
  | none => none
  | some 0 => none
  | some j => some ⟨name.data.drop (j + 1)⟩

/-- Models Rust `Path::set_extension` on a file name (new extension is always
non-empty in this codebase): `file_stem` plus `.` plus the new extension. -/
def setExtName (name : String) (ext : String) : String :=
  fileStemOf name ++ "." ++ ext

/-- Models `Path::with_extension`: replace the extension of the final
component; a path without a file name is returned unchanged (Rust
`set_extension` returns `false` and does nothing there). -/
def FsPath.withExtension (p : FsPath) (ext : String) : FsPath :=
  match p.fileNameOf with
  | none => p
  | some name => p.dropLast ++ [setExtName name ext]

/-- Models `util::split_file_at_dot` applied to a file name: split at the
first dot, skipping a leading dot, with `..` returned whole.  Only the first
projection (the prefix part) is ever used by the crate. -/
def splitFileAtDot (name : String) : String × Option String :=
  let cs := name.data
  if cs = ['.', '.'] then (name, none)
  else
    match (cs.drop 1).findIdx? (fun ch => ch = '.') with
    | none => (name, none)
    | some i => (⟨cs.take (i + 1)⟩, some ⟨cs.drop (i + 2)⟩)

/-- Models `util::file_prefix`: the file name's part before the first dot;
`none` when the path has no file name. -/
def filePrefixOf (p : FsPath) : Option String :=
  (p.fileNameOf).map (fun name => (splitFileAtDot name).1)

/-- Models `util::PathExt::long_ext`: drops `file_prefix.len() + 1` characters
from the rendered path string.  Note the Rust code slices the whole path
string, not the file name.  `none` models both the `?` on a missing file
name and the panic of an out-of-range byte slice. -/
def longExt (p : FsPath) : Option String :=
  match filePrefixOf p with
  | none => none
  | some pre =>
      let s := FsPath.render p
      let start := pre.data.length + 1
      if start ≤ s.data.length then some ⟨s.data.drop start⟩ else none

/-- Models `naga::ShaderStage`. -/
inductive ShaderStage
  | Vertex
  | Fragment
  | Compute
deriving DecidableEq, Repr

/-- Models `language::transpile::ShaderLanguage`. -/
inductive ShaderLanguage
  | WGSL
  | GLSL
  | SPV
  | HLSL
  | MSL
deriving DecidableEq, Repr

/-- Models `ShaderLanguage::ALL`. -/
def ShaderLanguage.ALL : List ShaderLanguage :=
  [ShaderLanguage.WGSL, ShaderLanguage.GLSL, ShaderLanguage.SPV,
   ShaderLanguage.HLSL, ShaderLanguage.MSL]

/-- Models `ShaderLanguage::to_str`. -/
def ShaderLanguage.toStr : ShaderLanguage → String
  | .WGSL => "wgsl"
  | .GLSL => "glsl"
  | .SPV => "spv"
  | .HLSL => "hlsl"
  | .MSL => "msl"

/-- Models `ShaderLanguage::is_binary`. -/
def ShaderLanguage.isBinary (l : ShaderLanguage) : Bool :=
  l = ShaderLanguage.SPV

/-- Models `ShaderLanguage::from_file_name`: language detection from the
path's extension, lowercased. -/
def ShaderLanguage.fromFileName (p : FsPath) : Option ShaderLanguage :=
  match p.fileNameOf with
  | none => none
  | some name =>
    match extOf name with
    | none => none
    | some ext =>
      match asciiLowercase ext with
      | "wgsl" => some ShaderLanguage.WGSL
      | "glsl" => some ShaderLanguage.GLSL
      | "vs" => some ShaderLanguage.GLSL
      | "fs" => some ShaderLanguage.GLSL
      | "cs" => some ShaderLanguage.GLSL
      | "vert" => some ShaderLanguage.GLSL
      | "frag" => some ShaderLanguage.GLSL
      | "comp" => some ShaderLanguage.GLSL
      | "spv" => some ShaderLanguage.SPV
      | _ => none

/-- Models `ShaderLanguage::get_ext`: the stage-aware extension suffix. -/
def ShaderLanguage.getExt (l : ShaderLanguage) (stage : Option ShaderStage) : String :=
  match l with
  | .WGSL =>
    match stage with
    | some .Vertex => "vert.wgsl"
    | some .Fragment => "frag.wgsl"
    | some .Compute => "comp.wgsl"
    | none => "wgsl"
  | .GLSL =>
    match stage with
    | some .Vertex => "vert.glsl"
    | some .Fragment => "frag.glsl"
    | some .Compute => "comp.glsl"
    | none => "glsl"
  | .SPV =>
    match stage with
    | some .Vertex => "v.spv"
    | some .Fragment => "f.spv"
    | some .Compute => "c.spv"
    | none => "spv"
  | .HLSL =>
    match stage with
    | some .Vertex => "vert.hlsl"
    | some .Fragment => "frag.hlsl"
    | some .Compute => "comp.hlsl"
    | none => "hlsl"
  | .MSL =>
    match stage with
    | some .Vertex => "vert.msl"
    | some .Fragment => "frag.msl"
    | some .Compute => "comp.msl"
    | none => "msl"

/-- Models `shader::stage_from_name`: stage detection from the file name's
long suffix, lowercased.  Note the token table: `vs | vert | vs.glsl`,
`fs | frag | fs.glsl`, `cs | comp | cs.glsl`. -/
def stage_from_name (p : FsPath) : Option ShaderStage :=
  match longExt p with
  | none => none
  | some ext =>
    match asciiLowercase ext with
    | "vs" => some ShaderStage.Vertex
    | "vert" => some ShaderStage.Vertex
    | "vs.glsl" => some ShaderStage.Vertex
    | "fs" => some ShaderStage.Fragment
    | "frag" => some ShaderStage.Fragment
    | "fs.glsl" => some ShaderStage.Fragment
    | "cs" => some ShaderStage.Compute
    | "comp" => some ShaderStage.Compute
    | "cs.glsl" => some ShaderStage.Compute
    | _ => none

/-- Models `language::transpile::ShaderFile` (one manifest entry). -/
structure ShaderFile where
  language : ShaderLanguage
  path : FsPath
  stage : Option ShaderStage
deriving DecidableEq, Repr

/-- Rust `PartialEq for ShaderFile` compares only the paths; this is the
membership test used by the `HashSet<ShaderFile>` collections. -/
def sfEq (a b : ShaderFile) : Bool := a.path = b.path

/-- Models `HashSet<ShaderFile>::insert` under the path-keyed equality:
if an element with the same path is present the set is unchanged (Rust
`insert` does not replace an existing equal element). -/
def hsInsert (s : List ShaderFile) (f : ShaderFile) : List ShaderFile :=
  if s.any (fun g => sfEq g f) then s else s ++ [f]

/-- Models `HashSet::union`: the elements of the first set, then those of the
second whose path is not present in the first.  (Rust iteration order within
a `HashSet` is unspecified; the claims below are all insensitive to it.) -/
def hsUnion (s t : List ShaderFile) : List ShaderFile :=
  s ++ t.filter (fun g => ¬ s.any (fun x => sfEq x g))

/-- Models `language::codegen::CodegenData`: per-language source and include
sets (arrays indexed by `ShaderLanguage as usize`, here total functions). -/
structure CodegenData where
  sources : ShaderLanguage → List ShaderFile
  includes : ShaderLanguage → List ShaderFile

instance : Inhabited CodegenData := ⟨⟨fun _ => [], fun _ => []⟩⟩

/-- Models `CodegenData::default()`. -/
def CodegenData.empty : CodegenData := ⟨fun _ => [], fun _ => []⟩

/-- Models `CodegenData::register_source`. -/
def CodegenData.register_source (d : CodegenData) (language : ShaderLanguage)
    (result_file : ShaderFile) : CodegenData :=
  { d with sources := Function.update d.sources language (hsInsert (d.sources language) result_file) }

/-- Models `CodegenData::register_result`. -/
def CodegenData.register_result (d : CodegenData) (language : ShaderLanguage)
    (result_file : ShaderFile) : CodegenData :=
  { d with includes := Function.update d.includes language (hsInsert (d.includes language) result_file) }

/-- Models `impl AddAssign for CodegenData`: for every language, drain the
right operand's sets into the left operand's sets (`HashSet::insert` each
element; drain order is unspecified in Rust, fixed to list order here — the
merge claims are stated up to path-set equality, which is order-blind). -/
def CodegenData.add (a b : CodegenData) : CodegenData :=
  { sources := fun l => (b.sources l).foldl hsInsert (a.sources l),
    includes := fun l => (b.includes l).foldl hsInsert (a.includes l) }

/-- The set of paths of a `HashSet<ShaderFile>`; two Rust sets compare equal
under the path-keyed `PartialEq` exactly when their path sets agree. -/
def pathSet (s : List ShaderFile) : Finset FsPath :=
  (s.map (fun f => f.path)).toFinset

/-- Key-wise set equality of two manifest collections under the path-keyed
`ShaderFile` equality: the equality notion of the merge claims. -/
def cdEq (a b : CodegenData) : Prop :=
  ∀ l : ShaderLanguage,
    pathSet (a.sources l) = pathSet (b.sources l) ∧
    pathSet (a.includes l) = pathSet (b.includes l)

/-- The entry list the generator renders for one language: the union of that
language's source set and include set (`generate_sources` in
`language/codegen.rs`). -/
def CodegenData.renderedEntries (d : CodegenData) (l : ShaderLanguage) : List ShaderFile :=
  hsUnion (d.sources l) (d.includes l)

/-- Models `format_static_statement` in `language/codegen.rs`. -/
def format_static_statement (name : String) (value : FsPath) (indent : Nat) : String :=
  String.join (List.replicate indent "    ") ++
    "pub static " ++ name ++ ": &'static str = include_str!(\"./" ++
    FsPath.render value ++ "\");\n"

/-- Models `impl ToStaticStatement for ShaderFile` in `language/codegen.rs`:
the constant name actually rendered into the manifest.  `none` models the
`expect("invalid shader file name")` panic. -/
def ShaderFile.staticName (f : ShaderFile) : Option String :=
  (filePrefixOf f.path).map fun shader_name =>
    replaceDots (asciiUppercase shader_name)

/-- Models `ShaderFile::name` in `language/transpile.rs` (computed from the
prefix, with a stage tag appended whenever a stage is present; this function
is not called by the manifest renderer). -/
def ShaderFile.displayName (f : ShaderFile) : Option String :=
  (filePrefixOf f.path).map fun pre =>
    let base := replaceDots (asciiUppercase pre)
    match f.stage with
    | some .Vertex => base ++ "_VERT"
    | some .Fragment => base ++ "_FRAG"
    | some .Compute => base ++ "_COMP"
    | none => base

/-- Models `naga::EntryPoint` at the granularity the crate inspects: the
stage and the optional function name. -/
structure EntryPoint where
  stage : ShaderStage
  name : Option String
deriving DecidableEq, Repr

/-- Models `naga::Module` at the granularity the crate inspects: its entry
point list. -/
structure NagaModule where
  entry_points : List EntryPoint
deriving DecidableEq, Repr

/-- Models `shader::ShaderCode`. -/
inductive ShaderCode
  | Text (value : String)
  | Binary (value : List Nat)
deriving DecidableEq, Repr

/-- Models `shader::Shader` (the `lang` field of `shader.rs` is recomputed
from the path where the transpiler needs it, and the opaque
`naga::valid::ModuleInfo` carries no data the core inspects). -/
structure Shader where
  path : FsPath
  source_stage : Option ShaderStage
  source : Option ShaderCode
  module : Option NagaModule
  module_info : Option Unit
deriving DecidableEq, Repr

/-- Models `error::SourceError`.  External front-end failures carry an opaque
message; `expectFailed` models a Rust panic (`expect`/`unwrap`/
`unimplemented!`) escaping the function, which returns no error value. -/
inductive SourceError
  | UnhandledShaderStage
  | WGSLParse (e : String)
  | GLSLParse (e : String)
  | SPVParse (e : String)
  | Validation (path : FsPath)
  | expectFailed
deriving DecidableEq, Repr

/-- Models `error::TranspileError`.  Back-end failures carry an opaque
message; `expectFailed` models a Rust panic escaping the function. -/
inductive TranspileError
  | NoEntryPoint
  | SourceNotSupported
  | TargetNotSupported
  | UnhandledShaderStage
  | BackendFailed (e : String)
  | Io (e : String)
  | Parse (e : SourceError)
  | expectFailed
deriving DecidableEq, Repr

/-- The external naga front-ends (`spv::parse_u8_slice`,
`wgsl::parse_str`, `glsl::Parser::parse`), as an opaque oracle. -/
structure FrontEnd where
  spv : List Nat → Except String NagaModule
  wgsl : String → Except String NagaModule
  glsl : ShaderStage → String → Except String NagaModule

/-- The external naga back-end writers, as an opaque oracle: given the target
language, the module (with its validation info) and, for the per-entry-point
back-ends, the selected entry point's name and stage, produce the serialized
output or fail. -/
structure BackEnd where
  gen : ShaderLanguage → NagaModule → Option (String × ShaderStage) → Except String ShaderCode

/-- Models `ShaderLanguage::parse` (`language/transpile.rs`): returns the
cached module when one is present, otherwise invokes the front-end selected
by the language and caches the result.  The returned pair is the produced
module together with the updated shader (Rust mutates the shader in place).
`unwrap_text`/`unwrap_binary` panics and the `expect("no shader source")`
panic are modelled by `SourceError.expectFailed`. -/
def ShaderLanguage.parse (fe : FrontEnd) (lang : ShaderLanguage) (shader : Shader) :
    Except SourceError (NagaModule × Shader) :=
  match shader.module with
  | some m => Except.ok (m, shader)
  | none =>
    match shader.source with
    | none => Except.error SourceError.expectFailed
    | some source =>
      match lang with
      | .SPV =>
        match source with
        | .Binary bytes =>
          match fe.spv bytes with
          | Except.ok m => Except.ok (m, { shader with module := some m })
          | Except.error e => Except.error (SourceError.SPVParse e)
        | .Text _ => Except.error SourceError.expectFailed
      | .WGSL =>
        match source with
        | .Text text =>
          match fe.wgsl text with
          | Except.ok m => Except.ok (m, { shader with module := some m })
          | Except.error e => Except.error (SourceError.WGSLParse e)
        | .Binary _ => Except.error SourceError.expectFailed
      | .GLSL =>
        match shader.source_stage with
        | none => Except.error SourceError.UnhandledShaderStage
        | some stage =>
          match source with
          | .Text text =>
            match fe.glsl stage text with
            | Except.ok m => Except.ok (m, { shader with module := some m })
            | Except.error e => Except.error (SourceError.GLSLParse e)
          | .Binary _ => Except.error SourceError.expectFailed
      | _ => Except.error SourceError.expectFailed

/-- Models `ShaderLanguage::generate` (`language/transpile.rs`): the SPV and
GLSL back-ends require an entry point with a name (`NoEntryPoint`
otherwise); the WGSL, HLSL and MSL back-ends serialize the whole module and
ignore the entry-point argument.  The `expect("no module")`/
`expect("no module info")` panics are modelled by `expectFailed`. -/
def ShaderLanguage.generate (be : BackEnd) (lang : ShaderLanguage) (shader : Shader)
    (target : Option EntryPoint) : Except TranspileError ShaderCode :=
  match shader.module, shader.module_info with
  | some m, some _ =>
    match lang with
    | .SPV =>
      match target with
      | none => Except.error TranspileError.NoEntryPoint
      | some ep =>
        match ep.name with
        | none => Except.error TranspileError.NoEntryPoint
        | some nm =>
          match be.gen ShaderLanguage.SPV m (some (nm, ep.stage)) with
          | Except.ok code => Except.ok code
          | Except.error e => Except.error (TranspileError.BackendFailed e)
    | .GLSL =>
      match target with
      | none => Except.error TranspileError.NoEntryPoint
      | some ep =>
        match ep.name with
        | none => Except.error TranspileError.NoEntryPoint
        | some nm =>
          match be.gen ShaderLanguage.GLSL m (some (nm, ep.stage)) with
          | Except.ok code => Except.ok code
          | Except.error e => Except.error (TranspileError.BackendFailed e)
    | .WGSL =>
      match be.gen ShaderLanguage.WGSL m none with
      | Except.ok code => Except.ok code
      | Except.error e => Except.error (TranspileError.BackendFailed e)
    | .HLSL =>
      match be.gen ShaderLanguage.HLSL m none with
      | Except.ok code => Except.ok code
      | Except.error e => Except.error (TranspileError.BackendFailed e)
    | .MSL =>
      match be.gen ShaderLanguage.MSL m none with
      | Except.ok code => Except.ok code
      | Except.error e => Except.error (TranspileError.BackendFailed e)
  | _, _ => Except.error TranspileError.expectFailed

/-- Models `transpile_entry` (`language/transpile.rs`): allocate a text or
binary buffer per `is_binary` and let the back-end write into it. -/
def transpile_entry (be : BackEnd) (shader : Shader) (entry_point : Option EntryPoint)
    (target : ShaderLanguage) : Except TranspileError ShaderCode :=
  ShaderLanguage.generate be target shader entry_point

/-- Models `config::Config` at the granularity the transpiler reads it
(validation flags and capabilities are consumed only by the external
validator). -/
structure Config where
  src : FsPath
  out : FsPath
  generated : FsPath
  targets : List ShaderLanguage
deriving DecidableEq, Repr

/-- Models `Config::out_relative`: `self.out.strip_prefix(&self.src).unwrap()`.
`Path::strip_prefix` is component-wise; `none` models the `unwrap` panic when
`out` does not start with `src`. -/
def Config.out_relative (c : Config) : Option FsPath :=
  if c.src <+: c.out then some (c.out.drop c.src.length) else none

/-- The `ShaderFile` record registered for one generated output: the target
language, the output path `out_relative()/target/<path with target ext>`,
and the stage recorded by the corresponding `register_result` call. -/
def outFileFor (rel : FsPath) (target : ShaderLanguage) (s : Shader)
    (stage : Option ShaderStage) : ShaderFile :=
  { language := target,
    path := (rel.pjoin [target.toStr]).pjoin (s.path.withExtension (target.getExt stage)),
    stage := stage }

/-- The per-entry-point loop of the GLSL/HLSL/MSL fan-out branch of
`Transpile::transpile_and_write` (`language/transpile.rs`): transpile each
entry point and register one output file carrying that entry point's stage.
Filesystem writes (`fs::write`, directory creation) have no bearing on the
registered data and are not modelled; `Config::out_relative`'s `unwrap`
panic is modelled by `expectFailed`. -/
def processEntryPoints (be : BackEnd) (cfg : Config) (s : Shader)
    (target : ShaderLanguage) :
    List EntryPoint → CodegenData → Except TranspileError CodegenData
  | [], acc => Except.ok acc
  | entry_point :: rest, acc =>
    match transpile_entry be s (some entry_point) target with
    | Except.error e => Except.error e
    | Except.ok _ =>
      match cfg.out_relative with
      | none => Except.error TranspileError.expectFailed
      | some rel =>
        processEntryPoints be cfg s target rest
          (acc.register_result target (outFileFor rel target s (some entry_point.stage)))

/-- The body of the per-target loop of `Transpile::transpile_and_write` for
a single `Shader`: the entry-point fan-out policy. -/
def processTarget (be : BackEnd) (cfg : Config) (s : Shader) (module : NagaModule)
    (target : ShaderLanguage) (acc : CodegenData) : Except TranspileError CodegenData :=
  if 1 < module.entry_points.length then
    match target with
    | .WGSL | .SPV =>
      match module.entry_points with
      | [] => Except.error TranspileError.expectFailed
      | entry_point :: _ =>
        match transpile_entry be s (some entry_point) target with
        | Except.error e => Except.error e
        | Except.ok _ =>
          match cfg.out_relative with
          | none => Except.error TranspileError.expectFailed
          | some rel =>
            Except.ok (acc.register_result target (outFileFor rel target s none))
    | .GLSL | .HLSL | .MSL =>
      processEntryPoints be cfg s target module.entry_points acc
  else
    match module.entry_points with
    | [] => Except.ok acc
    | entry_point :: _ =>
      match transpile_entry be s (some entry_point) target with
      | Except.error e => Except.error e
      | Except.ok _ =>
        match cfg.out_relative with
        | none => Except.error TranspileError.expectFailed
        | some rel =>
          Except.ok (acc.register_result target (outFileFor rel target s (some entry_point.stage)))

/-- The per-target loop of `Transpile::transpile_and_write` for a single
`Shader`, folding `processTarget` over the configured targets. -/
def processTargets (be : BackEnd) (cfg : Config) (s : Shader) (module : NagaModule) :
    List ShaderLanguage → CodegenData → Except TranspileError CodegenData
  | [], acc => Except.ok acc
  | target :: rest, acc =>
    match processTarget be cfg s module target acc with
    | Except.error e => Except.error e
    | Except.ok acc2 => processTargets be cfg s module rest acc2

/-- Models `impl Transpile for Shader::transpile_and_write`
(`language/transpile.rs`): register the shader itself as a source under its
detected language, then run the per-target loop.  The
`expect("shader module must exist")` panic is modelled by `expectFailed`. -/
def Shader.transpile_and_write (be : BackEnd) (cfg : Config) (s : Shader) :
    Except TranspileError CodegenData :=
  match s.module with
  | none => Except.error TranspileError.expectFailed
  | some module =>
    match ShaderLanguage.fromFileName s.path with
    | none => Except.error TranspileError.SourceNotSupported
    | some source_lang =>
      let init := CodegenData.empty.register_source source_lang
        { language := source_lang, path := s.path, stage := none }
      processTargets be cfg s module cfg.targets init

/-- The loop of `impl Transpile for Vec<Shader>::transpile_and_write`: merge
each shader's data into the accumulator, returning the first error as the
batch's result (the removal of previously generated files touches only the
filesystem and is not modelled). -/
def transpileBatchFrom (be : BackEnd) (cfg : Config) :
    List Shader → CodegenData → Except TranspileError CodegenData
  | [], acc => Except.ok acc
  | shader :: rest, acc =>
    match Shader.transpile_and_write be cfg shader with
    | Except.ok data => transpileBatchFrom be cfg rest (acc.add data)
    | Except.error e => Except.error e

/-- Models `impl Transpile for Vec<Shader>::transpile_and_write`. -/
def transpileBatch (be : BackEnd) (cfg : Config) (shaders : List Shader) :
    Except TranspileError CodegenData :=
  transpileBatchFrom be cfg shaders CodegenData.empty

/-- The character class of one path segment in the `INCLUDE_MACRO` pattern
of `preprocess/mod.rs` (ASCII reading of the class in the pattern). -/
def isPathChar (ch : Char) : Bool :=
  ch.isAlphanum ∨ ch = '-' ∨ ch = '_' ∨ ch = '.'

/-- Path separators accepted by the `INCLUDE_MACRO` pattern. -/
def isSepChar (ch : Char) : Bool := ch = '\\' ∨ ch = '/'

/-- Regex whitespace class matched by the pattern's required gap. -/
def isWsChar (ch : Char) : Bool :=
  ch = ' ' ∨ ch = '\t' ∨ ch = '\n' ∨ ch = '\r' ∨ ch = '\x0B' ∨ ch = '\x0C'

/-- Consume the repeated separator-plus-segment part of the path pattern,
stopping before a separator that is not followed by a segment character
(neither quote character belongs to the segment or separator classes, so
greedy consumption agrees with the regex engine here).  Structural recursion
on a fuel argument; each step consumes at least two characters, so fuel
equal to the list length (supplied by `chompSegs`) never runs out. -/
def chompSegsFuel : Nat → List Char → List Char
  | 0, cs => cs
  | fuel + 1, cs =>
    match cs with
    | c :: rest =>
      if isSepChar c then
        if (rest.takeWhile isPathChar).isEmpty then c :: rest
        else chompSegsFuel fuel (rest.dropWhile isPathChar)
      else cs
    | [] => []

/-- The separator-plus-segment consumer with enough fuel for its input. -/
def chompSegs (cs : List Char) : List Char :=
  chompSegsFuel cs.length cs

/-- After an opening quote `q`, does the remaining text continue with a path
matched by the pattern and then the closing quote `q`? -/
def matchQuotedPath (q : Char) (cs : List Char) : Bool :=
  if (cs.takeWhile isPathChar).isEmpty then false
  else
    match chompSegs (cs.dropWhile isPathChar) with
    | c :: _ => c = q
    | [] => false

/-- Does a match of the `INCLUDE_MACRO` pattern start at this position? -/
def matchIncludeAt : List Char → Bool
  | 'u' :: 's' :: 'e' :: rest =>
    if (rest.takeWhile isWsChar).isEmpty then false
    else
      match rest.dropWhile isWsChar with
      | q :: more => if q = '\'' ∨ q = '"' then matchQuotedPath q more else false
      | [] => false
  | _ => false

/-- Models `INCLUDE_MACRO.find(buffer).is_some()`: the pattern matches at
some position of the buffer. -/
def hasIncludeMacro (s : String) : Bool :=
  s.data.tails.any matchIncludeAt

/-- Models the `while INCLUDE_MACRO.find(buffer).is_some()` loop of
`proc_includes` (`preprocess/mod.rs`), with explicit fuel.  The loop body
only appends the match spans to a local vector that is never read and never
modifies `buffer`, so one iteration changes nothing the loop condition
depends on; `none` means the fuel ran out with the loop still running. -/
def proc_includes_loop (buffer : String) : Nat → Option Unit
  | 0 => none
  | fuel + 1 =>
    if hasIncludeMacro buffer then proc_includes_loop buffer fuel
    else some ()

/-- Models `proc_includes` (its `_config` parameter is unused). -/
def proc_includes (fuel : Nat) (buffer : String) : Option Unit :=
  proc_includes_loop buffer fuel

/-- Models `preprocess_shader`: read the file (`content` is the outcome of
`ShaderCode::read`, `none` for an I/O error), run the include pass on
textual sources, store the result in the shader.  The outer `none` means
`proc_includes` never returned within `fuel` iterations; otherwise the pair
is the updated shader and the Rust function's `Option` return value. -/
def preprocess_shader (fuel : Nat) (content : Option ShaderCode) (shader : Shader) :
    Option (Shader × Option ShaderCode) :=
  match content with
  | none => some (shader, none)
  | some code =>
    match code with
    | ShaderCode.Text value =>
      match proc_includes fuel value with
      | none => none
      | some _ => some ({ shader with source := some code }, some code)
    | ShaderCode.Binary _ => some ({ shader with source := some code }, some code)

/-! ## Lemmas about the path-keyed set model -/

theorem any_sfEq_iff (s : List ShaderFile) (f : ShaderFile) :
    (s.any fun g => sfEq g f) = true ↔ f.path ∈ pathSet s := by
  simp [sfEq, pathSet, List.any_eq_true, List.mem_toFinset, List.mem_map]

theorem pathSet_hsInsert (s : List ShaderFile) (f : ShaderFile) :
    pathSet (hsInsert s f) = pathSet s ∪ {f.path} := by
  unfold hsInsert
  by_cases h : (s.any fun g => sfEq g f) = true
  · rw [if_pos h]
    have hmem : f.path ∈ pathSet s := (any_sfEq_iff s f).mp h
    exact (Finset.union_eq_left.mpr (Finset.singleton_subset_iff.mpr hmem)).symm
  · rw [if_neg h]
    simp [pathSet, List.toFinset_append]

theorem pathSet_foldl (t : List ShaderFile) (s : List ShaderFile) :
    pathSet (t.foldl hsInsert s) = pathSet s ∪ pathSet t := by
  induction t generalizing s with
  | nil => simp [pathSet]
  | cons f t ih =>
    have hcons : pathSet (f :: t) = {f.path} ∪ pathSet t := by
      simp [pathSet, Finset.insert_eq]
    simp only [List.foldl_cons, ih, pathSet_hsInsert, hcons]
    rw [Finset.union_assoc]

/-! ## C1 -/

/-- C1: merging two manifest collections (`CodegenData` via `AddAssign`) is
associative and commutative: for any manifests `A`, `B`, `C`,
`merge(A, merge(B, C))` equals `merge(merge(A, B), C)` and `merge(A, B)`
equals `merge(B, A)`, where equality is key-wise set equality of the
per-language sources and includes sets (the path-keyed equality of
`impl PartialEq for ShaderFile`). -/
theorem codegen_merge_assoc_comm (a b c : CodegenData) :
    cdEq (a.add (b.add c)) ((a.add b).add c) ∧ cdEq (a.add b) (b.add a) := by
  constructor
  · intro l
    constructor <;> simp only [CodegenData.add, pathSet_foldl] <;>
      exact (Finset.union_assoc _ _ _).symm
  · intro l
    constructor <;> simp only [CodegenData.add, pathSet_foldl] <;>
      exact Finset.union_comm _ _

/-! ## C3 -/

/-- C3 (evaluation of `stage_from_name` at the claimed inputs): the code
returns `none` for `shader.vert.glsl` — the token table matches `vs`,
`vert` and `vs.glsl` but not `vert.glsl` — while the other three inputs
behave as claimed, and the abbreviated two-part suffix `vs.glsl` is
recognized.  The claim (and the spec's own end-to-end example, which names
its sources `a.vert.glsl`/`a.frag.glsl`) therefore fails on the first
input: the code is missing the `vert.glsl`/`frag.glsl`/`comp.glsl` tokens. -/
theorem stage_from_name_eval :
    stage_from_name ["shader.vert.glsl"] = none ∧
    stage_from_name ["shader.frag"] = some ShaderStage.Fragment ∧
    stage_from_name ["shader.cs"] = some ShaderStage.Compute ∧
    stage_from_name ["shader.glsl"] = none ∧
    stage_from_name ["shader.vs.glsl"] = some ShaderStage.Vertex := by
  decide

/-! ## C8 -/

/-- C8: parsing is idempotent: for every shader that already holds a cached
parsed module, `ShaderLanguage::parse` returns that cached module with the
shader unchanged, and does so for every front-end oracle — i.e. without
invoking the language front-end. -/
theorem parse_returns_cached_module (fe : FrontEnd) (lang : ShaderLanguage)
    (shader : Shader) (m : NagaModule) (h : shader.module = some m) :
    ShaderLanguage.parse fe lang shader = Except.ok (m, shader) := by
  unfold ShaderLanguage.parse
  rw [h]

/-- A front-end oracle that rejects everything: if `parse` consulted the
front-end at all, its result would be an error. -/
def rejectingFrontEnd : FrontEnd :=
  { spv := fun _ => Except.error "spv front-end invoked",
    wgsl := fun _ => Except.error "wgsl front-end invoked",
    glsl := fun _ _ => Except.error "glsl front-end invoked" }

/-- A shader with a cached (empty) module, for concrete instantiation. -/
def cachedShader : Shader :=
  { path := ["a.wgsl"], source_stage := none, source := none,
    module := some { entry_points := [] }, module_info := none }

theorem parse_returns_cached_module_witness :
    ShaderLanguage.parse rejectingFrontEnd ShaderLanguage.WGSL cachedShader =
      Except.ok ({ entry_points := [] }, cachedShader) :=
  parse_returns_cached_module rejectingFrontEnd ShaderLanguage.WGSL cachedShader
    { entry_points := [] } rfl

/-! ## C10 -/

/-- C10: `Config::out_relative` is safe exactly under the precondition that
the configured output path has the configured source path as a (component)
prefix: it then returns `out` with the `src` prefix stripped and the
`unwrap` panic branch (modelled by `none`) is unreachable; when `out` is
not under `src`, the function panics (returns `none`). -/
theorem out_relative_safety (c : Config) :
    (c.src <+: c.out → c.out_relative = some (c.out.drop c.src.length)) ∧
    (¬ c.src <+: c.out → c.out_relative = none) := by
  constructor <;> intro h <;> simp [Config.out_relative, h]

theorem out_relative_safety_witness :
    Config.out_relative
        { src := ["shaders"], out := ["shaders", "gen"], generated := [], targets := [] } =
      some ["gen"] ∧
    Config.out_relative
        { src := ["shaders"], out := ["other"], generated := [], targets := [] } =
      none :=
  ⟨(out_relative_safety _).1 (by decide), (out_relative_safety _).2 (by decide)⟩

/-! ## C9 -/

/-- C9 (evaluation of the code at a failing input): for every buffer the
`INCLUDE_MACRO` pattern matches — in particular any buffer containing a
`use '<path>'` or `use "<path>"` directive — the `proc_includes` while-loop
never exits (its body never modifies the buffer the loop condition reads),
so `proc_includes`, and hence `preprocess_shader` on such a textual source,
does not return for any iteration budget.  This refutes the termination
claim; termination is clearly the intent (the collected spans are dead
local state of an unfinished rewrite step). -/
theorem proc_includes_diverges_on_match (buffer : String)
    (h : hasIncludeMacro buffer = true) :
    (∀ fuel, proc_includes fuel buffer = none) ∧
    (∀ fuel shader, preprocess_shader fuel (some (ShaderCode.Text buffer)) shader = none) := by
  have hloop : ∀ fuel, proc_includes fuel buffer = none := by
    intro fuel
    induction fuel with
    | zero => rfl
    | succ n ih =>
      simp only [proc_includes, proc_includes_loop, h, if_true] at ih ⊢
      exact ih
  refine ⟨hloop, fun fuel shader => ?_⟩
  simp only [preprocess_shader, hloop fuel]

theorem proc_includes_diverges_on_match_witness :
    hasIncludeMacro "use 'common.glsl'" = true ∧
    proc_includes 1000 "use 'common.glsl'" = none :=
  ⟨by decide,
   (proc_includes_diverges_on_match "use 'common.glsl'" (by decide)).1 1000⟩

/-! ## C4 -/

/-- The languages the per-target loop of `transpile_and_write` fans out per
entry point (the `GLSL | HLSL | MSL` arm of its multi-entry-point match). -/
def ShaderLanguage.fansOutPerEntryPoint : ShaderLanguage → Bool
  | .GLSL => true
  | .HLSL => true
  | .MSL => true
  | .WGSL => false
  | .SPV => false

/-- Modelled from the claim's words (not from the source), for comparison
with the renderer's actual `ShaderFile.staticName`: the constant name C4
predicts — uppercased pre-first-dot prefix, dots to underscores, plus an
uppercase stage tag exactly when the entry's language fans out per entry
point and the entry has a stage. -/
def claimedConstantNameC4 (f : ShaderFile) : Option String :=
  (filePrefixOf f.path).map fun pre =>
    let base := replaceDots (asciiUppercase pre)
    if f.language.fansOutPerEntryPoint && f.stage.isSome then
      base ++
        (match f.stage with
         | some .Vertex => "_VERT"
         | some .Fragment => "_FRAG"
         | some .Compute => "_COMP"
         | none => "")
    else base

/-- A GLSL fan-out manifest entry as `transpile_and_write` registers it:
stage present, language GLSL. -/
def glslVertEntry : ShaderFile :=
  { language := ShaderLanguage.GLSL,
    path := ["gen", "glsl", "shader.vert.glsl"],
    stage := some ShaderStage.Vertex }

/-- C4 counterexample: for a GLSL entry with a stage — a language that fans
out per entry point — the manifest renderer
(`ToStaticStatement for ShaderFile` in `language/codegen.rs`, the impl
`generate_sources` calls) produces `SHADER`, not the claimed `SHADER_VERT`:
no stage tag is ever appended. -/
theorem rendered_name_no_stage_tag_counterexample :
    ShaderFile.staticName glslVertEntry = some "SHADER" ∧
    claimedConstantNameC4 glslVertEntry = some "SHADER_VERT" ∧
    ShaderFile.staticName glslVertEntry ≠ claimedConstantNameC4 glslVertEntry := by
  decide

/-- C4 (amended): the constant name rendered for each manifest entry is
derived deterministically from its path alone — the filename's prefix
(before the first dot) uppercased with remaining dots replaced by
underscores — and no stage tag is ever appended: entries sharing a path get
the same name regardless of their stage and language attributes. -/
theorem rendered_name_path_only (f g : ShaderFile) (h : f.path = g.path) :
    f.staticName = g.staticName ∧
    (∀ pre, filePrefixOf f.path = some pre →
      f.staticName = some (replaceDots (asciiUppercase pre))) := by
  constructor
  · simp [ShaderFile.staticName, h]
  · intro pre hpre
    simp [ShaderFile.staticName, hpre]

theorem rendered_name_path_only_witness :
    ShaderFile.staticName glslVertEntry =
      ShaderFile.staticName
        { language := ShaderLanguage.WGSL,
          path := ["gen", "glsl", "shader.vert.glsl"], stage := none } ∧
    ShaderFile.staticName glslVertEntry = some "SHADER" :=
  ⟨(rendered_name_path_only glslVertEntry
      { language := ShaderLanguage.WGSL,
        path := ["gen", "glsl", "shader.vert.glsl"], stage := none } rfl).1,
   (rendered_name_path_only glslVertEntry glslVertEntry rfl).2 "shader" (by decide)⟩

/-! ## C6 -/

/-- The number of entries with a given path in an entry list. -/
def countPath (s : List ShaderFile) (p : FsPath) : Nat :=
  (s.filter fun f => f.path = p).length

/-- The no-duplicate-paths invariant every `HashSet<ShaderFile>` maintains
under the path-keyed equality. -/
def nodupPaths (s : List ShaderFile) : Prop :=
  (s.map fun f => f.path).Nodup

instance (s : List ShaderFile) : Decidable (nodupPaths s) := by
  unfold nodupPaths
  infer_instance

theorem mem_pathSet_iff (s : List ShaderFile) (p : FsPath) :
    p ∈ pathSet s ↔ p ∈ s.map fun f => f.path := by
  simp [pathSet]

theorem nodupPaths_hsInsert (s : List ShaderFile) (f : ShaderFile)
    (h : nodupPaths s) : nodupPaths (hsInsert s f) := by
  unfold hsInsert
  by_cases hmem : (s.any fun g => sfEq g f) = true
  · rwa [if_pos hmem]
  · rw [if_neg hmem]
    unfold nodupPaths at h ⊢
    rw [List.map_append, List.nodup_append]
    refine ⟨h, List.nodup_singleton _, ?_⟩
    intro x hx hx2
    simp only [List.map_cons, List.map_nil, List.mem_singleton] at hx2
    subst hx2
    exact hmem ((any_sfEq_iff s f).mpr ((mem_pathSet_iff s f.path).mpr hx))

theorem countPath_eq_zero_of_not_mem (s : List ShaderFile) (p : FsPath)
    (h : p ∉ pathSet s) : countPath s p = 0 := by
  unfold countPath
  rw [List.length_eq_zero, List.filter_eq_nil_iff]
  intro f hf
  simp only [decide_eq_true_eq]
  intro heq
  exact h ((mem_pathSet_iff s p).mpr (List.mem_map.mpr ⟨f, hf, heq⟩))

theorem countPath_eq_one_of_mem (s : List ShaderFile) (p : FsPath)
    (hnd : nodupPaths s) (hmem : p ∈ pathSet s) : countPath s p = 1 := by
  induction s with
  | nil => simp [pathSet] at hmem
  | cons f t ih =>
    unfold nodupPaths at hnd
    simp only [List.map_cons, List.nodup_cons] at hnd
    obtain ⟨hfp, hnd2⟩ := hnd
    rw [mem_pathSet_iff] at hmem
    simp only [List.map_cons, List.mem_cons] at hmem
    unfold countPath
    rw [List.filter_cons]
    rcases hmem with hpf | hpt
    · rw [if_pos (by simpa using hpf.symm)]
      have hzero : countPath t p = 0 := by
        apply countPath_eq_zero_of_not_mem
        rw [mem_pathSet_iff, hpf]
        exact hfp
      unfold countPath at hzero
      simp [hzero]
    · have hne : f.path ≠ p := by
        intro heq
        rw [heq] at hfp
        exact hfp hpt
      rw [if_neg (by simpa using hne)]
      exact ih hnd2 ((mem_pathSet_iff t p).mpr hpt)

theorem nodupPaths_hsUnion (s t : List ShaderFile)
    (hs : nodupPaths s) (ht : nodupPaths t) : nodupPaths (hsUnion s t) := by
  unfold hsUnion nodupPaths
  rw [List.map_append, List.nodup_append]
  refine ⟨hs, ?_, ?_⟩
  · exact List.Nodup.sublist ((List.filter_sublist t).map _) ht
  · intro x hx hx2
    simp only [List.mem_map, List.mem_filter] at hx2
    obtain ⟨g, ⟨hg, hgp⟩, hgx⟩ := hx2
    subst hgx
    have hany : (s.any fun y => sfEq y g) = true :=
      (any_sfEq_iff s g).mpr ((mem_pathSet_iff s g.path).mpr hx)
    simp [hany] at hgp

theorem pathSet_hsUnion (s t : List ShaderFile) :
    pathSet (hsUnion s t) = pathSet s ∪ pathSet t := by
  ext p
  simp only [hsUnion, pathSet, List.map_append, List.toFinset_append, Finset.mem_union,
    List.mem_toFinset, List.mem_map, List.mem_filter]
  constructor
  · rintro (⟨g, hg, hgp⟩ | ⟨g, ⟨hg, _⟩, hgp⟩)
    · exact Or.inl ⟨g, hg, hgp⟩
    · exact Or.inr ⟨g, hg, hgp⟩
  · rintro (⟨g, hg, hgp⟩ | ⟨g, hg, hgp⟩)
    · exact Or.inl ⟨g, hg, hgp⟩
    · by_cases hin : (s.any fun x => sfEq x g) = true
      · have hmem := (any_sfEq_iff s g).mp hin
        rw [mem_pathSet_iff] at hmem
        simp only [List.mem_map] at hmem
        obtain ⟨g2, hg2, hg2p⟩ := hmem
        exact Or.inl ⟨g2, hg2, by rw [hg2p, hgp]⟩
      · exact Or.inr ⟨g, ⟨hg, by simp [hin]⟩, hgp⟩

/-- C6: registering the same path twice into a manifest collection — via
`register_source` plus `register_result`, or via `register_result` twice,
possibly with different stage or language attributes on the two records —
yields exactly one entry with that path in the rendered per-language
grouping (the sources-union-includes list `generate_sources` iterates),
provided the collection's sets satisfy the no-duplicate-paths invariant
every `HashSet` maintains. -/
theorem register_same_path_once (d : CodegenData) (L : ShaderLanguage)
    (f g : ShaderFile) (hpath : g.path = f.path)
    (hs : nodupPaths (d.sources L)) (hi : nodupPaths (d.includes L)) :
    countPath (((d.register_source L f).register_result L g).renderedEntries L) f.path = 1 ∧
    countPath (((d.register_result L f).register_result L g).renderedEntries L) f.path = 1 := by
  constructor
  · have hsrc : ((d.register_source L f).register_result L g).sources L =
        hsInsert (d.sources L) f := by
      simp [CodegenData.register_source, CodegenData.register_result, Function.update_same]
    have hinc : ((d.register_source L f).register_result L g).includes L =
        hsInsert (d.includes L) g := by
      simp [CodegenData.register_source, CodegenData.register_result, Function.update_same]
    unfold CodegenData.renderedEntries
    rw [hsrc, hinc]
    apply countPath_eq_one_of_mem
    · exact nodupPaths_hsUnion _ _ (nodupPaths_hsInsert _ _ hs) (nodupPaths_hsInsert _ _ hi)
    · rw [pathSet_hsUnion, pathSet_hsInsert]
      exact Finset.mem_union_left _
        (Finset.mem_union_right _ (Finset.mem_singleton_self _))
  · have hsrc : ((d.register_result L f).register_result L g).sources L = d.sources L := by
      simp [CodegenData.register_result]
    have hinc : ((d.register_result L f).register_result L g).includes L =
        hsInsert (hsInsert (d.includes L) f) g := by
      simp [CodegenData.register_result, Function.update_same]
    unfold CodegenData.renderedEntries
    rw [hsrc, hinc]
    apply countPath_eq_one_of_mem
    · exact nodupPaths_hsUnion _ _ hs
        (nodupPaths_hsInsert _ _ (nodupPaths_hsInsert _ _ hi))
    · rw [pathSet_hsUnion, pathSet_hsInsert, pathSet_hsInsert]
      exact Finset.mem_union_right _
        (Finset.mem_union_left _
          (Finset.mem_union_right _ (Finset.mem_singleton_self _)))

/-- A source-style record and a generated-style record with the same path
but different stage attributes. -/
def dupSourceFile : ShaderFile :=
  { language := ShaderLanguage.GLSL, path := ["a.vert.glsl"], stage := none }

/-- Same path as `dupSourceFile`, different stage attribute. -/
def dupResultFile : ShaderFile :=
  { language := ShaderLanguage.GLSL, path := ["a.vert.glsl"],
    stage := some ShaderStage.Vertex }

theorem register_same_path_once_witness :
    countPath (((CodegenData.empty.register_source ShaderLanguage.GLSL dupSourceFile).register_result
        ShaderLanguage.GLSL dupResultFile).renderedEntries ShaderLanguage.GLSL)
      dupSourceFile.path = 1 ∧
    countPath (((CodegenData.empty.register_result ShaderLanguage.GLSL dupSourceFile).register_result
        ShaderLanguage.GLSL dupResultFile).renderedEntries ShaderLanguage.GLSL)
      dupSourceFile.path = 1 :=
  register_same_path_once CodegenData.empty ShaderLanguage.GLSL dupSourceFile dupResultFile
    rfl (by decide) (by decide)

/-! ## C7 -/

theorem processTargets_no_entry_points (be : BackEnd) (cfg : Config) (s : Shader)
    (ts : List ShaderLanguage) (acc : CodegenData) :
    processTargets be cfg s { entry_points := [] } ts acc = Except.ok acc := by
  induction ts generalizing acc with
  | nil => rfl
  | cons t ts ih =>
    have hstep : processTarget be cfg s { entry_points := [] } t acc = Except.ok acc := by
      simp [processTarget]
    simp only [processTargets, hstep]
    exact ih acc

/-- C7: for every shader whose parsed module has zero entry points,
transpiling succeeds with a collection holding zero generated output files
for every configured target — whatever the target list is — while the
shader's own source file is registered exactly once under its detected
source language (and under no other), for every back-end oracle (the
back-end is never consulted). -/
theorem zero_entry_points_registers_source_only (be : BackEnd) (cfg : Config)
    (s : Shader) (L : ShaderLanguage)
    (hm : s.module = some { entry_points := [] })
    (hl : ShaderLanguage.fromFileName s.path = some L) :
    Shader.transpile_and_write be cfg s =
      Except.ok (CodegenData.empty.register_source L
        { language := L, path := s.path, stage := none }) ∧
    (∀ lang, (CodegenData.empty.register_source L
        { language := L, path := s.path, stage := none }).includes lang = []) ∧
    (CodegenData.empty.register_source L
        { language := L, path := s.path, stage := none }).sources L =
      [{ language := L, path := s.path, stage := none }] ∧
    (∀ lang, lang ≠ L → (CodegenData.empty.register_source L
        { language := L, path := s.path, stage := none }).sources lang = []) := by
  refine ⟨?_, ?_, ?_, ?_⟩
  · simp only [Shader.transpile_and_write, hm, hl]
    exact processTargets_no_entry_points be cfg s cfg.targets _
  · intro lang
    simp [CodegenData.register_source, CodegenData.empty]
  · simp [CodegenData.register_source, CodegenData.empty, Function.update_same, hsInsert]
  · intro lang hne
    simp [CodegenData.register_source, CodegenData.empty, Function.update_noteq hne]

/-- A back-end oracle that rejects everything: any registered output would
require the transpile to have consulted it, so a successful run shows no
generation took place. -/
def rejectingBackEnd : BackEnd :=
  { gen := fun _ _ _ => Except.error "back-end invoked" }

/-- A discovered WGSL shader whose parsed module has no entry points. -/
def zeroEntryShader : Shader :=
  { path := ["z.wgsl"], source_stage := none, source := none,
    module := some { entry_points := [] }, module_info := some () }

/-- A configuration with three configured targets. -/
def threeTargetConfig : Config :=
  { src := [], out := ["gen"], generated := ["lib.rs"],
    targets := [ShaderLanguage.GLSL, ShaderLanguage.WGSL, ShaderLanguage.SPV] }

/-- The collection C7 predicts for `zeroEntryShader`. -/
def zeroEntryData : CodegenData :=
  CodegenData.empty.register_source ShaderLanguage.WGSL
    { language := ShaderLanguage.WGSL, path := ["z.wgsl"], stage := none }

theorem zero_entry_points_registers_source_only_witness :
    Shader.transpile_and_write rejectingBackEnd threeTargetConfig zeroEntryShader =
      Except.ok zeroEntryData ∧
    zeroEntryData.includes ShaderLanguage.GLSL = [] ∧
    zeroEntryData.sources ShaderLanguage.WGSL =
      [{ language := ShaderLanguage.WGSL, path := ["z.wgsl"], stage := none }] ∧
    zeroEntryData.sources ShaderLanguage.GLSL = [] :=
  have h := zero_entry_points_registers_source_only rejectingBackEnd threeTargetConfig
    zeroEntryShader ShaderLanguage.WGSL rfl rfl
  ⟨h.1, h.2.1 ShaderLanguage.GLSL, h.2.2.1, h.2.2.2 ShaderLanguage.GLSL (by decide)⟩

/-! ## C5 -/

/-- A back-end oracle that always succeeds, producing a fixed text. -/
def okBackEnd : BackEnd :=
  { gen := fun _ _ _ => Except.ok (ShaderCode.Text "out") }

/-- A single-target (GLSL) configuration with the output root under the
source root. -/
def glslTargetConfig : Config :=
  { src := [], out := ["gen"], generated := ["lib.rs"],
    targets := [ShaderLanguage.GLSL] }

/-- A parsed shader whose single entry point has no function name: the GLSL
back-end path rejects it with the target error `NoEntryPoint`. -/
def namelessEntryShader : Shader :=
  { path := ["a.wgsl"], source_stage := none, source := none,
    module := some { entry_points := [{ stage := ShaderStage.Vertex, name := none }] },
    module_info := some () }

/-- A parsed shader whose single entry point is named: it transpiles fine. -/
def namedEntryShader : Shader :=
  { path := ["b.wgsl"], source_stage := none, source := none,
    module := some { entry_points := [{ stage := ShaderStage.Vertex, name := some "main" }] },
    module_info := some () }

/-- C5 counterexample: a target error (`NoEntryPoint`) raised while
transpiling the first shader for its single target makes the whole batch
return that error — the second shader is never processed and no registered
results survive — whereas a batch holding only the second shader registers
its source and output.  This refutes the claim that such an error is fatal
only to that shader's processing for that target. -/
theorem target_error_aborts_whole_batch_counterexample :
    Shader.transpile_and_write okBackEnd glslTargetConfig namelessEntryShader =
      Except.error TranspileError.NoEntryPoint ∧
    transpileBatch okBackEnd glslTargetConfig [namelessEntryShader, namedEntryShader] =
      Except.error TranspileError.NoEntryPoint ∧
    Except.map (fun d => d.sources ShaderLanguage.WGSL)
        (transpileBatch okBackEnd glslTargetConfig [namedEntryShader]) =
      Except.ok [{ language := ShaderLanguage.WGSL, path := ["b.wgsl"], stage := none }] ∧
    Except.map (fun d => (d.includes ShaderLanguage.GLSL).length)
        (transpileBatch okBackEnd glslTargetConfig [namedEntryShader]) =
      Except.ok 1 :=
  ⟨rfl, rfl, rfl, rfl⟩

/-- C5 (amended): a target error (`TargetNotSupported` or `NoEntryPoint`)
arising while transpiling one shader for one target is fatal to the entire
batch: `Vec<Shader>::transpile_and_write` stops at the first failing shader
and returns its error, discarding every registered result, including those
of previously succeeded shaders and of shaders not yet processed. -/
theorem batch_aborts_on_first_error (be : BackEnd) (cfg : Config)
    (xs ys : List Shader) (s : Shader) (e : TranspileError)
    (hok : ∀ x ∈ xs, ∃ d, Shader.transpile_and_write be cfg x = Except.ok d)
    (herr : Shader.transpile_and_write be cfg s = Except.error e) :
    transpileBatch be cfg (xs ++ s :: ys) = Except.error e := by
  have hgo : ∀ acc, transpileBatchFrom be cfg (xs ++ s :: ys) acc = Except.error e := by
    induction xs with
    | nil =>
      intro acc
      simp only [List.nil_append, transpileBatchFrom, herr]
    | cons x xs ih =>
      intro acc
      obtain ⟨d, hd⟩ := hok x (List.mem_cons_self x xs)
      simp only [List.cons_append, transpileBatchFrom, hd]
      exact ih (fun y hy => hok y (List.mem_cons_of_mem x hy)) _
  exact hgo CodegenData.empty

theorem batch_aborts_on_first_error_witness :
    transpileBatch okBackEnd glslTargetConfig
        [namedEntryShader, namelessEntryShader, namedEntryShader] =
      Except.error TranspileError.NoEntryPoint :=
  batch_aborts_on_first_error okBackEnd glslTargetConfig
    [namedEntryShader] [namedEntryShader] namelessEntryShader TranspileError.NoEntryPoint
    (by
      intro x hx
      rw [List.mem_singleton] at hx
      subst hx
      exact ⟨_, rfl⟩)
    rfl

/-! ## C2 -/

theorem strAppend_cancel_left (a b c : String) (h : a ++ b = a ++ c) : b = c := by
  have hd : (a ++ b).data = (a ++ c).data := by rw [h]
  simp only [String.data_append, List.append_cancel_left_eq] at hd
  cases b
  cases c
  exact congrArg String.mk (by simpa using hd)

theorem setExtName_inj (name e1 e2 : String)
    (h : setExtName name e1 = setExtName name e2) : e1 = e2 := by
  unfold setExtName at h
  exact strAppend_cancel_left (fileStemOf name ++ ".") e1 e2 (by
    simpa [String.append_assoc] using h)

theorem outFileFor_path_ne (rel : FsPath) (t : ShaderLanguage) (s : Shader)
    (name : String) (hn : s.path.fileNameOf = some name)
    (st1 st2 : Option ShaderStage) (hne : t.getExt st1 ≠ t.getExt st2) :
    (outFileFor rel t s st1).path ≠ (outFileFor rel t s st2).path := by
  intro h
  apply hne
  unfold outFileFor FsPath.pjoin FsPath.withExtension at h
  rw [hn] at h
  simp only [List.append_assoc, List.append_cancel_left_eq] at h
  exact setExtName_inj name _ _ (by simpa using h)

theorem includes_register_result_same (d : CodegenData) (L : ShaderLanguage)
    (f : ShaderFile) :
    (d.register_result L f).includes L = hsInsert (d.includes L) f := by
  simp [CodegenData.register_result, Function.update_same]

theorem includes_register_source_eq (d : CodegenData) (L L2 : ShaderLanguage)
    (f : ShaderFile) : (d.register_source L f).includes L2 = d.includes L2 := rfl

theorem hsInsert_nil (f : ShaderFile) : hsInsert [] f = [f] := by
  simp [hsInsert]

theorem hsInsert_of_no_path (s : List ShaderFile) (f : ShaderFile)
    (h : ∀ g ∈ s, g.path ≠ f.path) : hsInsert s f = s ++ [f] := by
  have hany : (s.any fun g => sfEq g f) = false := by
    rw [List.any_eq_false]
    intro g hg
    simp only [sfEq, decide_eq_true_eq]
    exact h g hg
  unfold hsInsert
  simp [hany]

/-- The suffix property of C2: the path's file name ends in a dot followed
by the given stage-specific extension. -/
def pathHasExtSuffix (p : FsPath) (ext : String) : Prop :=
  ∃ last, p.getLast? = some last ∧ ("." ++ ext).data <:+ last.data

theorem outFileFor_suffix (rel : FsPath) (t : ShaderLanguage) (s : Shader)
    (name : String) (hn : s.path.fileNameOf = some name) (st : Option ShaderStage) :
    pathHasExtSuffix (outFileFor rel t s st).path (t.getExt st) := by
  unfold outFileFor FsPath.pjoin FsPath.withExtension pathHasExtSuffix
  rw [hn]
  refine ⟨setExtName name (t.getExt st), ?_, ?_⟩
  · rw [show (rel ++ [t.toStr]) ++ (s.path.dropLast ++ [setExtName name (t.getExt st)]) =
        ((rel ++ [t.toStr]) ++ s.path.dropLast) ++ [setExtName name (t.getExt st)] by
      simp [List.append_assoc]]
    exact List.getLast?_concat _
  · unfold setExtName
    simp only [String.data_append, List.append_assoc]
    exact List.suffix_append _ _

theorem fromFileName_some_fileName (p : FsPath) (L : ShaderLanguage)
    (h : ShaderLanguage.fromFileName p = some L) :
    ∃ name, p.fileNameOf = some name := by
  unfold ShaderLanguage.fromFileName at h
  cases hn : p.fileNameOf with
  | none => rw [hn] at h; cases h
  | some name => exact ⟨name, rfl⟩

theorem transpile_and_write_eq (be : BackEnd) (cfg : Config) (s : Shader)
    (M : NagaModule) (L : ShaderLanguage)
    (hm : s.module = some M) (hl : ShaderLanguage.fromFileName s.path = some L) :
    Shader.transpile_and_write be cfg s =
      processTargets be cfg s M cfg.targets
        (CodegenData.empty.register_source L
          { language := L, path := s.path, stage := none }) := by
  unfold Shader.transpile_and_write
  rw [hm, hl]

theorem processTargets_single_ok (be : BackEnd) (cfg : Config) (s : Shader)
    (M : NagaModule) (t : ShaderLanguage) (acc : CodegenData) (d : CodegenData)
    (h : processTargets be cfg s M [t] acc = Except.ok d) :
    processTarget be cfg s M t acc = Except.ok d := by
  unfold processTargets at h
  cases hpt : processTarget be cfg s M t acc with
  | error e => rw [hpt] at h; cases h
  | ok acc2 =>
    rw [hpt] at h
    unfold processTargets at h
    injection h with h
    rw [h]


theorem processTarget_glsl_eq (be : BackEnd) (cfg : Config) (s : Shader)
    (eps : List EntryPoint) (acc : CodegenData) (hlen : 1 < eps.length) :
    processTarget be cfg s { entry_points := eps } ShaderLanguage.GLSL acc =
      processEntryPoints be cfg s ShaderLanguage.GLSL eps acc := by
  unfold processTarget
  rw [if_pos (by simpa using hlen)]

theorem processTarget_wgsl_eq (be : BackEnd) (cfg : Config) (s : Shader)
    (ep0 : EntryPoint) (eps : List EntryPoint) (acc : CodegenData)
    (hlen : 1 < (ep0 :: eps).length) :
    processTarget be cfg s { entry_points := ep0 :: eps } ShaderLanguage.WGSL acc =
      (match transpile_entry be s (some ep0) ShaderLanguage.WGSL with
       | Except.error e => Except.error e
       | Except.ok _ =>
         match cfg.out_relative with
         | none => Except.error TranspileError.expectFailed
         | some rel =>
           Except.ok (acc.register_result ShaderLanguage.WGSL
             (outFileFor rel ShaderLanguage.WGSL s none))) := by
  unfold processTarget
  rw [if_pos (by simpa using hlen)]

/-- C2: for every shader whose parsed module has 3 entry points (one
vertex, one fragment, one compute), a transpile run configured with GLSL as
target that succeeds registers exactly 3 generated output files under GLSL,
each carrying that entry point's stage-specific extension suffix and stage,
while a run of the same module configured with WGSL as target registers
exactly 1 generated output file under WGSL. -/
theorem glsl_fan_out_three_wgsl_one
    (be : BackEnd) (cfg1 cfg2 : Config) (s : Shader) (v f c : EntryPoint)
    (d1 d2 : CodegenData)
    (hm : s.module = some { entry_points := [v, f, c] })
    (hv : v.stage = ShaderStage.Vertex)
    (hf : f.stage = ShaderStage.Fragment)
    (hc : c.stage = ShaderStage.Compute)
    (ht1 : cfg1.targets = [ShaderLanguage.GLSL])
    (ht2 : cfg2.targets = [ShaderLanguage.WGSL])
    (h1 : Shader.transpile_and_write be cfg1 s = Except.ok d1)
    (h2 : Shader.transpile_and_write be cfg2 s = Except.ok d2) :
    (d1.includes ShaderLanguage.GLSL).length = 3 ∧
    (d1.includes ShaderLanguage.GLSL).map ShaderFile.stage =
      [some ShaderStage.Vertex, some ShaderStage.Fragment, some ShaderStage.Compute] ∧
    (∀ fl ∈ d1.includes ShaderLanguage.GLSL, ∃ st, fl.stage = some st ∧
        pathHasExtSuffix fl.path (ShaderLanguage.GLSL.getExt (some st))) ∧
    (d2.includes ShaderLanguage.WGSL).length = 1 := by
  cases hfn : ShaderLanguage.fromFileName s.path with
  | none =>
    unfold Shader.transpile_and_write at h1
    rw [hm, hfn] at h1
    cases h1
  | some L =>
    obtain ⟨name, hn⟩ := fromFileName_some_fileName s.path L hfn
    -- GLSL side
    rw [transpile_and_write_eq be cfg1 s _ L hm hfn, ht1] at h1
    have h1t := processTargets_single_ok _ _ _ _ _ _ _ h1
    rw [processTarget_glsl_eq be cfg1 s [v, f, c] _ (by simp)] at h1t
    cases he1 : transpile_entry be s (some v) ShaderLanguage.GLSL with
    | error e => simp [processEntryPoints, he1] at h1t
    | ok code1 =>
    cases hrel : cfg1.out_relative with
    | none => simp [processEntryPoints, he1, hrel] at h1t
    | some rel =>
    cases he2 : transpile_entry be s (some f) ShaderLanguage.GLSL with
    | error e => simp [processEntryPoints, he1, hrel, he2] at h1t
    | ok code2 =>
    cases he3 : transpile_entry be s (some c) ShaderLanguage.GLSL with
    | error e => simp [processEntryPoints, he1, hrel, he2, he3] at h1t
    | ok code3 =>
    simp only [processEntryPoints, he1, hrel, he2, he3, Except.ok.injEq] at h1t
    have hne_vf := outFileFor_path_ne rel ShaderLanguage.GLSL s name hn
      (some v.stage) (some f.stage) (by rw [hv, hf]; decide)
    have hne_vc := outFileFor_path_ne rel ShaderLanguage.GLSL s name hn
      (some v.stage) (some c.stage) (by rw [hv, hc]; decide)
    have hne_fc := outFileFor_path_ne rel ShaderLanguage.GLSL s name hn
      (some f.stage) (some c.stage) (by rw [hf, hc]; decide)
    have hinc : d1.includes ShaderLanguage.GLSL =
        [outFileFor rel ShaderLanguage.GLSL s (some v.stage),
         outFileFor rel ShaderLanguage.GLSL s (some f.stage),
         outFileFor rel ShaderLanguage.GLSL s (some c.stage)] := by
      rw [← h1t]
      rw [includes_register_result_same, includes_register_result_same,
        includes_register_result_same, includes_register_source_eq]
      show hsInsert (hsInsert (hsInsert [] _) _) _ = _
      rw [hsInsert_nil]
      rw [hsInsert_of_no_path [outFileFor rel ShaderLanguage.GLSL s (some v.stage)]
        (outFileFor rel ShaderLanguage.GLSL s (some f.stage)) (by
          intro g hg
          rw [List.mem_singleton] at hg
          subst hg
          exact hne_vf)]
      rw [hsInsert_of_no_path
        ([outFileFor rel ShaderLanguage.GLSL s (some v.stage)] ++
          [outFileFor rel ShaderLanguage.GLSL s (some f.stage)])
        (outFileFor rel ShaderLanguage.GLSL s (some c.stage)) (by
          intro g hg
          simp only [List.mem_append, List.mem_singleton] at hg
          rcases hg with hg | hg <;> subst hg
          · exact hne_vc
          · exact hne_fc)]
      simp
    -- WGSL side
    rw [transpile_and_write_eq be cfg2 s _ L hm hfn, ht2] at h2
    have h2t := processTargets_single_ok _ _ _ _ _ _ _ h2
    rw [processTarget_wgsl_eq be cfg2 s v [f, c] _ (by simp)] at h2t
    cases he4 : transpile_entry be s (some v) ShaderLanguage.WGSL with
    | error e => simp [he4] at h2t
    | ok code4 =>
    cases hrel2 : cfg2.out_relative with
    | none => simp [he4, hrel2] at h2t
    | some rel2 =>
    simp only [he4, hrel2, Except.ok.injEq] at h2t
    have hinc2 : d2.includes ShaderLanguage.WGSL =
        [outFileFor rel2 ShaderLanguage.WGSL s none] := by
      rw [← h2t]
      rw [includes_register_result_same, includes_register_source_eq]
      show hsInsert [] _ = _
      rw [hsInsert_nil]
    refine ⟨?_, ?_, ?_, ?_⟩
    · rw [hinc]
      rfl
    · rw [hinc]
      simp [outFileFor, hv, hf, hc]
    · intro fl hfl
      rw [hinc] at hfl
      simp only [List.mem_cons, List.not_mem_nil, or_false] at hfl
      rcases hfl with hfl | hfl | hfl <;> subst hfl
      · exact ⟨v.stage, rfl, outFileFor_suffix rel ShaderLanguage.GLSL s name hn (some v.stage)⟩
      · exact ⟨f.stage, rfl, outFileFor_suffix rel ShaderLanguage.GLSL s name hn (some f.stage)⟩
      · exact ⟨c.stage, rfl, outFileFor_suffix rel ShaderLanguage.GLSL s name hn (some c.stage)⟩
    · rw [hinc2]
      rfl

/-- A parsed shader with one vertex, one fragment and one compute entry
point, all named. -/
def threeEntryShader : Shader :=
  { path := ["tri.wgsl"], source_stage := none, source := none,
    module := some { entry_points :=
      [{ stage := ShaderStage.Vertex, name := some "vs_main" },
       { stage := ShaderStage.Fragment, name := some "fs_main" },
       { stage := ShaderStage.Compute, name := some "cs_main" }] },
    module_info := some () }

/-- A single-target (WGSL) configuration with the output root under the
source root. -/
def wgslTargetConfig : Config :=
  { src := [], out := ["gen"], generated := ["lib.rs"],
    targets := [ShaderLanguage.WGSL] }

/-- The collection a GLSL-target run registers for `threeEntryShader`. -/
def fanOutDataGLSL : CodegenData :=
  (((CodegenData.empty.register_source ShaderLanguage.WGSL
      { language := ShaderLanguage.WGSL, path := ["tri.wgsl"], stage := none }).register_result
    ShaderLanguage.GLSL (outFileFor ["gen"] ShaderLanguage.GLSL threeEntryShader
      (some ShaderStage.Vertex))).register_result
    ShaderLanguage.GLSL (outFileFor ["gen"] ShaderLanguage.GLSL threeEntryShader
      (some ShaderStage.Fragment))).register_result
    ShaderLanguage.GLSL (outFileFor ["gen"] ShaderLanguage.GLSL threeEntryShader
      (some ShaderStage.Compute))

/-- The collection a WGSL-target run registers for `threeEntryShader`. -/
def fanOutDataWGSL : CodegenData :=
  (CodegenData.empty.register_source ShaderLanguage.WGSL
    { language := ShaderLanguage.WGSL, path := ["tri.wgsl"], stage := none }).register_result
    ShaderLanguage.WGSL (outFileFor ["gen"] ShaderLanguage.WGSL threeEntryShader none)

theorem glsl_fan_out_three_wgsl_one_witness :
    (fanOutDataGLSL.includes ShaderLanguage.GLSL).length = 3 ∧
    (fanOutDataGLSL.includes ShaderLanguage.GLSL).map ShaderFile.stage =
      [some ShaderStage.Vertex, some ShaderStage.Fragment, some ShaderStage.Compute] ∧
    (fanOutDataWGSL.includes ShaderLanguage.WGSL).length = 1 :=
  have h := glsl_fan_out_three_wgsl_one okBackEnd glslTargetConfig wgslTargetConfig
    threeEntryShader
    { stage := ShaderStage.Vertex, name := some "vs_main" }
    { stage := ShaderStage.Fragment, name := some "fs_main" }
    { stage := ShaderStage.Compute, name := some "cs_main" }
    fanOutDataGLSL fanOutDataWGSL rfl rfl rfl rfl rfl rfl rfl rfl
  ⟨h.1, h.2.1, h.2.2.2⟩
